import Mathlib

/-!
Verification of the FacultyFlow grade computation and course-weighting engine
(`backend/services/grade_calculator.py` and `backend/grading_setup.py`).

Numbers are modelled as exact rationals (`ℚ`); Python's `round(x, 2)` is
modelled as rounding to two decimal places with ties to even, and fallible
Python code (a `TypeError` from `float(None)`, a `ZeroDivisionError`) is
modelled with `Except`.
-/

/-- Python runtime errors that the embedded code can raise. -/
inductive PyError where
  | typeError
  | zeroDivisionError
deriving DecidableEq, Repr

/-- Round a rational to the nearest integer, ties to even
(the rounding used by Python's builtin `round`). -/
def rhe (y : ℚ) : ℤ :=
  let f : ℤ := y.floor
  let r : ℚ := y - f
  if r < 1/2 then f
  else if 1/2 < r then f + 1
  else if f % 2 = 0 then f else f + 1

theorem ratFloor_eq_intFloor (y : ℚ) : y.floor = ⌊y⌋ := by
  rcases Int.le_antisymm ((Rat.le_floor).mpr (Int.floor_le y))
    (Int.le_floor.mpr (Rat.le_floor.mp le_rfl)) with h
  exact h.symm

/-- Python's `round(x, 2)`: round to two decimal places, ties to even. -/
def round2 (x : ℚ) : ℚ := (rhe (x * 100) : ℚ) / 100

theorem rhe_abs_le (y : ℚ) : |(rhe y : ℚ) - y| ≤ 1/2 := by
  unfold rhe
  rw [ratFloor_eq_intFloor]
  have hfl : (⌊y⌋ : ℚ) ≤ y := Int.floor_le y
  have hfu : y < (⌊y⌋ : ℚ) + 1 := Int.lt_floor_add_one y
  by_cases h1 : y - (⌊y⌋ : ℚ) < 1/2
  · simp only [h1, if_true]
    rw [abs_le]
    constructor <;> linarith
  · by_cases h2 : (1:ℚ)/2 < y - (⌊y⌋ : ℚ)
    · simp only [h1, h2, if_false, if_true]
      rw [abs_le]
      push_cast
      constructor <;> linarith
    · have heq : y - (⌊y⌋ : ℚ) = 1/2 := le_antisymm (not_lt.mp h2) (not_lt.mp h1)
      by_cases h3 : ⌊y⌋ % 2 = 0
      · simp only [h1, h2, h3, if_false, if_true]
        rw [abs_le]
        constructor <;> linarith
      · simp only [h1, h2, h3, if_false]
        rw [abs_le]
        push_cast
        constructor <;> linarith

theorem round2_abs_le (x : ℚ) : |round2 x - x| ≤ 1/200 := by
  have h := rhe_abs_le (x * 100)
  unfold round2
  have : (rhe (x * 100) : ℚ) / 100 - x = ((rhe (x * 100) : ℚ) - x * 100) / 100 := by
    ring
  rw [this, abs_div]
  have h100 : |(100 : ℚ)| = 100 := by norm_num
  rw [h100]
  rw [div_le_iff₀ (by norm_num : (0:ℚ) < 100)]
  linarith

theorem rhe_intCast (n : ℤ) : rhe (n : ℚ) = n := by
  unfold rhe
  rw [ratFloor_eq_intFloor, Int.floor_intCast]
  norm_num

theorem round2_intCast (n : ℤ) : round2 (n : ℚ) = n := by
  unfold round2
  have h : ((n : ℚ) * 100) = ((n * 100 : ℤ) : ℚ) := by push_cast; ring
  rw [h, rhe_intCast]
  push_cast
  ring

/-- Evaluation rule for `round2` when the scaled value rounds down. -/
theorem round2_eq_down (x : ℚ) (n : ℤ) (h1 : (n : ℚ) ≤ x * 100)
    (h2 : x * 100 - n < 1/2) : round2 x = (n : ℚ) / 100 := by
  unfold round2 rhe
  rw [ratFloor_eq_intFloor]
  have hfl : ⌊x * 100⌋ = n := by
    rw [Int.floor_eq_iff]
    constructor
    · exact h1
    · linarith
  rw [hfl]
  simp only [h2, if_true]

/-- Evaluation rule for `round2` when the scaled value rounds up. -/
theorem round2_eq_up (x : ℚ) (n : ℤ) (h1 : (n : ℚ) + 1/2 < x * 100)
    (h2 : x * 100 < (n : ℚ) + 1) : round2 x = ((n : ℚ) + 1) / 100 := by
  unfold round2 rhe
  rw [ratFloor_eq_intFloor]
  have hfl : ⌊x * 100⌋ = n := by
    rw [Int.floor_eq_iff]
    constructor
    · linarith
    · linarith
  rw [hfl]
  have hc1 : ¬ (x * 100 - (n : ℚ) < 1/2) := by linarith
  have hc2 : (1:ℚ)/2 < x * 100 - (n : ℚ) := by linarith
  simp only [hc1, hc2, if_false, if_true]
  push_cast
  ring

/-! ## Data model: assignments and category scores
(`backend/services/grade_calculator.py`)

An assignment record as the calculator's callers build it (see
`routers/student.py`): the `score` and `points_possible` keys are always
present, possibly with a null value, so a null is `none` here.  Python
truthiness of `points_possible` (`a.get("points_possible")`) is false for
both null and `0`. -/

structure Assignment where
  graded : Bool
  points_possible : Option ℚ
  score : Option ℚ
deriving DecidableEq

/-- Truthiness of `a.get("points_possible")`: a present, non-null, non-zero value. -/
def ppTruthy (a : Assignment) : Bool :=
  match a.points_possible with
  | none => false
  | some p => decide (p ≠ 0)

/-- The raw `points_possible` value of an assignment that passed the filter. -/
def ppVal (a : Assignment) : ℚ :=
  match a.points_possible with
  | none => 0
  | some p => p

/-- Line 45: `pct = (float(a["score"]) / float(a["points_possible"])) * 100
if a.get("score") is not None else 0`. -/
def itemPct (a : Assignment) : ℚ :=
  match a.score with
  | none => 0
  | some s => s / ppVal a * 100

/-- The sort key order used by `scored.sort(key=lambda x: x["_pct"])`. -/
def pctLE (a b : Assignment) : Prop := itemPct a ≤ itemPct b

instance : DecidableRel pctLE :=
  fun a b => inferInstanceAs (Decidable (itemPct a ≤ itemPct b))

instance : IsTotal Assignment pctLE := ⟨fun a b => le_total (itemPct a) (itemPct b)⟩

instance : IsTrans Assignment pctLE := ⟨fun _ _ _ hab hbc => le_trans hab hbc⟩

/-- Python's stable ascending sort by `_pct`, embedded as a stable insertion sort. -/
def sortByPct (l : List Assignment) : List Assignment := List.insertionSort pctLE l

/-- Lines 51-54: apply `drop_lowest` from the front of the sorted list, then
`drop_highest` from the tail, each only when it leaves at least one item
(`len(scored) > drop_n`). -/
def applyDropRules (l : List Assignment) (drop_lowest drop_highest : ℕ) : List Assignment :=
  let l1 := if 0 < drop_lowest ∧ drop_lowest < l.length then l.drop drop_lowest else l
  if 0 < drop_highest ∧ drop_highest < l1.length then l1.take (l1.length - drop_highest) else l1

/-- Line 59: `sum(float(a.get("score", 0)) for a in scored)`.  The `score` key
is always present in the records the callers build, so a null score reaches
`float(None)` and raises `TypeError`. -/
def sumScores : List Assignment → Except PyError ℚ
  | [] => Except.ok 0
  | a :: rest =>
    match a.score with
    | none => Except.error PyError.typeError
    | some s =>
      match sumScores rest with
      | Except.error e => Except.error e
      | Except.ok r => Except.ok (s + r)

structure CategoryScore where
  points_earned : ℚ
  points_possible : ℚ
  percentage : ℚ
  graded_count : ℕ
  total_count : ℕ
deriving DecidableEq

/-- `GradeCalculator.calculate_category_score` (lines 28-69). -/
def calculate_category_score (assignments : List Assignment)
    (drop_lowest drop_highest : ℕ) : Except PyError (Option CategoryScore) :=
  let graded := assignments.filter (fun a => a.graded && ppTruthy a)
  if graded.isEmpty then Except.ok none
  else
    let scored := sortByPct graded
    let survivors := applyDropRules scored drop_lowest drop_highest
    if survivors.isEmpty then Except.ok none
    else
      match sumScores survivors with
      | Except.error e => Except.error e
      | Except.ok earned =>
        let possible := (survivors.map ppVal).sum
        let percentage := if 0 < possible then earned / possible * 100 else 0
        Except.ok (some
          { points_earned := round2 earned
            points_possible := round2 possible
            percentage := round2 percentage
            graded_count := survivors.length
            total_count := assignments.length })

/-- `GradeCalculator.GRADE_SCALE` (lines 15-19). -/
def GRADE_SCALE : List (ℚ × String) :=
  [(93, "A"), (90, "A-"), (87, "B+"), (83, "B"), (80, "B-"),
   (77, "C+"), (73, "C"), (70, "C-"), (67, "D+"), (63, "D"),
   (60, "D-"), (0, "F")]

def letterFromScale : List (ℚ × String) → ℚ → String
  | [], _ => "F"
  | (t, l) :: rest, p => if t ≤ p then l else letterFromScale rest p

/-- `GradeCalculator.percentage_to_letter` (lines 21-26). -/
def percentage_to_letter (p : ℚ) : String := letterFromScale GRADE_SCALE p

/-- A category dict passed to `calculate_weighted_grade`:
`{name, weight, assignments, drop_lowest, drop_highest}`. -/
structure Category where
  name : String
  weight : ℚ
  assignments : List Assignment
  drop_lowest : ℕ
  drop_highest : ℕ
deriving DecidableEq

/-- A value of the per-name `category_scores` map built by
`calculate_weighted_grade` (lines 98-105). -/
structure CategoryEntry where
  percentage : ℚ
  points_earned : ℚ
  points_possible : ℚ
  weight : ℚ
  graded_count : ℕ
  total_count : ℕ
deriving DecidableEq

structure GradeResult where
  percentage : ℚ
  letter_grade : String
  points_earned : ℚ
  points_possible : ℚ
  category_scores : List (String × CategoryEntry)
deriving DecidableEq

def catResult (c : Category) : Except PyError (Option CategoryScore) :=
  calculate_category_score c.assignments c.drop_lowest c.drop_highest

/-- The accumulation loop of `calculate_weighted_grade` (lines 85-113),
threading `total_weight`, `weighted_sum`, `total_earned`, `total_possible`
and the `category_scores` map (kept as the insertion-ordered list; the
callers use distinct category names). -/
def wgLoop : List Category → ℚ → ℚ → ℚ → ℚ → List (String × CategoryEntry) →
    Except PyError (ℚ × ℚ × ℚ × ℚ × List (String × CategoryEntry))
  | [], tw, ws, te, tp, acc => Except.ok (tw, ws, te, tp, acc)
  | c :: rest, tw, ws, te, tp, acc =>
    match catResult c with
    | Except.error e => Except.error e
    | Except.ok none => wgLoop rest tw ws te tp acc
    | Except.ok (some s) =>
      let acc1 := acc ++ [(c.name,
        { percentage := s.percentage, points_earned := s.points_earned,
          points_possible := s.points_possible, weight := c.weight,
          graded_count := s.graded_count, total_count := s.total_count })]
      if 0 < c.weight then
        wgLoop rest (tw + c.weight) (ws + s.percentage * (c.weight / 100)) te tp acc1
      else
        wgLoop rest tw ws (te + s.points_earned) (tp + s.points_possible) acc1

/-- `GradeCalculator.calculate_weighted_grade` (lines 71-132). -/
def calculate_weighted_grade (categories : List Category) : Except PyError GradeResult :=
  match wgLoop categories 0 0 0 0 [] with
  | Except.error e => Except.error e
  | Except.ok (tw, ws, te, tp, acc) =>
    let percentage :=
      if 0 < tw then ws / tw * 100
      else if 0 < tp then te / tp * 100
      else 0
    let rounded := round2 percentage
    Except.ok
      { percentage := rounded
        letter_grade := percentage_to_letter rounded
        points_earned := round2 te
        points_possible := round2 tp
        category_scores := acc }

structure PointsGrade where
  percentage : ℚ
  letter_grade : String
  points_earned : ℚ
  points_possible : ℚ
deriving DecidableEq

/-- `GradeCalculator.calculate_points_grade` (lines 134-148). -/
def calculate_points_grade (assignments : List Assignment) : Except PyError PointsGrade :=
  let graded := assignments.filter (fun a => a.graded && ppTruthy a)
  match sumScores graded with
  | Except.error e => Except.error e
  | Except.ok earned =>
    let possible := (graded.map ppVal).sum
    let percentage := round2 (if 0 < possible then earned / possible * 100 else 0)
    Except.ok
      { percentage := percentage
        letter_grade := percentage_to_letter percentage
        points_earned := round2 earned
        points_possible := round2 possible }

/-- The message of a `what_if_target` result, as structured data in place of
the Python f-strings. -/
inductive WhatIfMsg where
  | noAssignments
  | noRemaining
  | notAchievable (pct : ℚ)
  | need (pct : ℚ) (letter : String)
deriving DecidableEq

/-- A `what_if_target` result dict; keys absent from a branch are `none`. -/
structure WhatIfResult where
  achievable : Bool
  needed_score : Option ℚ
  needed_percentage : Option ℚ
  message : WhatIfMsg
deriving DecidableEq

/-- `GradeCalculator.what_if_target` (lines 150-193). -/
def what_if_target (current_earned current_possible remaining_possible
    target_percentage : ℚ) : WhatIfResult :=
  let total_possible := current_possible + remaining_possible
  if total_possible ≤ 0 then
    { achievable := false, needed_score := none, needed_percentage := none,
      message := WhatIfMsg.noAssignments }
  else
    let needed_total := target_percentage / 100 * total_possible
    let needed_remaining := needed_total - current_earned
    if remaining_possible ≤ 0 then
      { achievable :=
          if 0 < current_possible then
            decide (target_percentage ≤ current_earned / current_possible * 100)
          else false,
        needed_score := some 0, needed_percentage := some 0,
        message := WhatIfMsg.noRemaining }
    else
      let needed_pct := needed_remaining / remaining_possible * 100
      if 100 < needed_pct then
        { achievable := false,
          needed_score := some (round2 needed_remaining),
          needed_percentage := some (round2 needed_pct),
          message := WhatIfMsg.notAchievable needed_pct }
      else
        { achievable := true,
          needed_score := some (round2 needed_remaining),
          needed_percentage := some (round2 needed_pct),
          message := WhatIfMsg.need needed_pct (percentage_to_letter target_percentage) }

/-! ## Data model: grading setup (`backend/grading_setup.py`)

The Canvas HTTP calls are abstracted: the three fetches feeding
`analyze_existing_setup` become its three arguments, and mutating calls made
by `fix_existing_setup` / `setup_weighted_grading` are recorded as traces. -/

structure CanvasGroup where
  id : ℕ
  group_weight : ℚ
deriving DecidableEq

structure CanvasAssignment where
  id : ℕ
  assignment_group_id : Option ℕ
deriving DecidableEq

/-- An entry of the `issues` list of `analyze_existing_setup`, as structured
data in place of the Python strings (lines 337, 344, 358, 365); numeric
payloads carry the values interpolated into the f-strings. -/
inductive Issue where
  | multipleGroupsNotWeighted
  | weightsTotal (total : ℚ)
  | orphanAssignments (count : ℕ)
  | emptyGroups (count : ℕ)
deriving DecidableEq

/-- An entry of the `suggestions` list (lines 338, 349, 352, 359, 366). -/
inductive Suggestion where
  | enableWeighted
  | addWeight (diff : ℚ)
  | reduceWeight (diff : ℚ)
  | moveOrphans
  | removeEmptyGroups
deriving DecidableEq

inductive Health where
  | healthy
  | needsAttention
deriving DecidableEq

structure AnalysisResult where
  has_groups : Bool
  groups : List CanvasGroup
  weighted_grading_enabled : Bool
  total_weight : ℚ
  orphan_assignments : ℕ
  empty_groups : ℕ
  issues : List Issue
  suggestions : List Suggestion
  health : Health
deriving DecidableEq

/-- `not a.get('assignment_group_id')` (line 355): Python falsiness, so a
null group id and a group id of `0` both count as orphaned. -/
def isOrphan (a : CanvasAssignment) : Bool :=
  match a.assignment_group_id with
  | none => true
  | some i => decide (i = 0)

/-- `not any(a.get('assignment_group_id') == g['id'] for a in assignments)`
(line 362). -/
def groupIsEmpty (assignments : List CanvasAssignment) (g : CanvasGroup) : Bool :=
  ! assignments.any (fun a => a.assignment_group_id == some g.id)

/-- `sum(g.get('group_weight', 0) for g in groups)` (line 341). -/
def totalWeightOf (groups : List CanvasGroup) : ℚ :=
  (groups.map (fun g => g.group_weight)).sum

/-- `GradingSetupService.analyze_existing_setup` (lines 293-385): its inputs
are the three fetched collections (assignment groups, the course's
`apply_assignment_group_weights` flag, and assignments). -/
def analyze_existing_setup (groups : List CanvasGroup) (weighted_enabled : Bool)
    (assignments : List CanvasAssignment) : AnalysisResult :=
  let enabledIssues : List Issue :=
    if ¬weighted_enabled ∧ 1 < groups.length then [Issue.multipleGroupsNotWeighted] else []
  let enabledSuggs : List Suggestion :=
    if ¬weighted_enabled ∧ 1 < groups.length then [Suggestion.enableWeighted] else []
  let total_weight := totalWeightOf groups
  let wFlag := weighted_enabled ∧ 1/100 < |total_weight - 100|
  let wIssue : List Issue := if wFlag then [Issue.weightsTotal total_weight] else []
  let wSugg : List Suggestion :=
    if wFlag then
      if total_weight < 100 then [Suggestion.addWeight (100 - total_weight)]
      else [Suggestion.reduceWeight (total_weight - 100)]
    else []
  let orphans := assignments.filter isOrphan
  let oIssue : List Issue :=
    if orphans.length ≠ 0 then [Issue.orphanAssignments orphans.length] else []
  let oSugg : List Suggestion := if orphans.length ≠ 0 then [Suggestion.moveOrphans] else []
  let empties := groups.filter (groupIsEmpty assignments)
  let eIssue : List Issue :=
    if empties.length ≠ 0 then [Issue.emptyGroups empties.length] else []
  let eSugg : List Suggestion := if empties.length ≠ 0 then [Suggestion.removeEmptyGroups] else []
  let issues := enabledIssues ++ wIssue ++ oIssue ++ eIssue
  { has_groups := 0 < groups.length
    groups := groups
    weighted_grading_enabled := weighted_enabled
    total_weight := round2 total_weight
    orphan_assignments := orphans.length
    empty_groups := empties.length
    issues := issues
    suggestions := enabledSuggs ++ wSugg ++ oSugg ++ eSugg
    health := if issues.isEmpty then Health.healthy else Health.needsAttention }

/-- A mutating Canvas call issued by `fix_existing_setup`. -/
inductive FixCall where
  | updateWeight (groupId : ℕ) (newWeight : ℚ)
  | enableWeighted
  | deleteGroup (groupId : ℕ)
deriving DecidableEq

structure FixResult where
  status : String
  groups_adjusted : Option ℕ
  groups_deleted : Option ℕ
deriving DecidableEq

/-- `GradingSetupService.fix_existing_setup` (lines 387-440).  The mutating
calls are returned as a trace; `100 / total_weight` at line 422 raises
`ZeroDivisionError` when the analyzed total weight is zero, and the method
has no `try`/`except`, so the error propagates.  A `fix_type` other than
`"auto"`/`"reset"` falls off the end of the method (Python returns `None`). -/
def fix_existing_setup (groups : List CanvasGroup) (weighted_enabled : Bool)
    (assignments : List CanvasAssignment) (fixType : String) :
    Except PyError (Option (List FixCall × FixResult)) :=
  let analysis := analyze_existing_setup groups weighted_enabled assignments
  if fixType = "reset" then
    Except.ok (some (analysis.groups.map (fun g => FixCall.deleteGroup g.id),
      { status := "success", groups_adjusted := none,
        groups_deleted := some analysis.groups.length }))
  else if fixType = "auto" then
    let gs := analysis.groups
    let total_weight := analysis.total_weight
    let weightCallsE : Except PyError (List FixCall) :=
      if 1/100 < |total_weight - 100| ∧ 0 < gs.length then
        if total_weight = 0 then Except.error PyError.zeroDivisionError
        else Except.ok (gs.map (fun g =>
          FixCall.updateWeight g.id (round2 (g.group_weight * (100 / total_weight)))))
      else Except.ok []
    match weightCallsE with
    | Except.error e => Except.error e
    | Except.ok weightCalls =>
      let enableCalls : List FixCall :=
        if ¬analysis.weighted_grading_enabled ∧ 1 < gs.length then [FixCall.enableWeighted] else []
      Except.ok (some (weightCalls ++ enableCalls,
        { status := "success", groups_adjusted := some gs.length, groups_deleted := none }))
  else Except.ok none

/-- A category passed to `setup_weighted_grading`; the per-category `rules`
dict is translated inside `create_assignment_group` and is not relevant to
the claims, so it is not modelled. -/
structure SetupCategory where
  name : String
  weight : ℚ
deriving DecidableEq

/-- An LMS call issued by `setup_weighted_grading`, in issue order. -/
inductive LMSCall where
  | createGroup (name : String) (weight : ℚ)
  | enableWeighted
  | applySettings
  | fetchGroups
deriving DecidableEq

/-- The outcome each LMS call would have, abstracting the Canvas HTTP layer:
an `Except.error` is the exception `create_assignment_group` /
`enable_weighted_grading` / `apply_global_rules` / `verify_grading_setup`
raises on a non-2xx response. -/
structure LMSOutcomes where
  createGroup : SetupCategory → Except String Unit
  enableWeighted : Except String Unit
  applyGlobalRules : Except String Unit
  verify : Except String Unit

/-- The message of a `setup_weighted_grading` error result, as structured
data in place of the Python strings (lines 80, 120). -/
inductive SetupMsg where
  | weightsNotHundred (total : ℚ)
  | stepFailed (e : String)
deriving DecidableEq

structure SetupOutcome where
  status : String
  message : Option SetupMsg
  groups_created : Option ℕ
  weighted_grading_enabled : Option Bool
deriving DecidableEq

def setupError (e : String) : SetupOutcome :=
  { status := "error", message := some (SetupMsg.stepFailed e),
    groups_created := none, weighted_grading_enabled := none }

/-- Step 2 of `setup_weighted_grading` (lines 84-93): create the groups one
by one, stopping at the first failure; returns the created count and the
trace of creation calls actually issued. -/
def createGroupsLoop (env : LMSOutcomes) : List SetupCategory →
    Except String ℕ × List LMSCall
  | [] => (Except.ok 0, [])
  | c :: rest =>
    match env.createGroup c with
    | Except.error e => (Except.error e, [LMSCall.createGroup c.name c.weight])
    | Except.ok _ =>
      match createGroupsLoop env rest with
      | (Except.error e, tr) => (Except.error e, LMSCall.createGroup c.name c.weight :: tr)
      | (Except.ok n, tr) => (Except.ok (n + 1), LMSCall.createGroup c.name c.weight :: tr)

/-- Steps 3-5 of `setup_weighted_grading` (lines 95-114) after the groups
were created. -/
def setupAfterGroups (env : LMSOutcomes) (hasRules : Bool) (n : ℕ)
    (tr : List LMSCall) : SetupOutcome × List LMSCall :=
  match env.enableWeighted with
  | Except.error e => (setupError e, tr ++ [LMSCall.enableWeighted])
  | Except.ok _ =>
    let tr2 := tr ++ [LMSCall.enableWeighted]
    let afterRules : Except String Unit × List LMSCall :=
      if hasRules then
        match env.applyGlobalRules with
        | Except.error e => (Except.error e, tr2 ++ [LMSCall.applySettings])
        | Except.ok _ => (Except.ok (), tr2 ++ [LMSCall.applySettings])
      else (Except.ok (), tr2)
    match afterRules with
    | (Except.error e, tr3) => (setupError e, tr3)
    | (Except.ok _, tr3) =>
      match env.verify with
      | Except.error e => (setupError e, tr3 ++ [LMSCall.fetchGroups])
      | Except.ok _ =>
        ({ status := "success", message := none, groups_created := some n,
           weighted_grading_enabled := some true }, tr3 ++ [LMSCall.fetchGroups])

/-- `GradingSetupService.setup_weighted_grading` (lines 44-121): weight
validation, then the four LMS steps inside the `try`, with any raised
exception converted to an error-status result. -/
def setup_weighted_grading (env : LMSOutcomes) (categories : List SetupCategory)
    (hasRules : Bool) : SetupOutcome × List LMSCall :=
  let total_weight := (categories.map (fun c => c.weight)).sum
  if 1/100 < |total_weight - 100| then
    ({ status := "error", message := some (SetupMsg.weightsNotHundred total_weight),
       groups_created := none, weighted_grading_enabled := none }, [])
  else
    match createGroupsLoop env categories with
    | (Except.error e, tr) => (setupError e, tr)
    | (Except.ok n, tr) => setupAfterGroups env hasRules n tr

/-! ## Canvas state model for the setup/analyze round trip

Modelled from the spec: the external LMS collaborator (§6 of the spec) is
not part of this repository, so the effect of its `createCategory` and
`enableWeightedGrading` calls on the course is modelled here as a state:
creating a category appends a group with the given weight under a fresh id,
and enabling weighted grading sets the course flag; assignments are
untouched by both. -/

structure CanvasState where
  groups : List CanvasGroup
  weightedEnabled : Bool
  assignments : List CanvasAssignment

/-- Modelled from the spec: a fresh id for a created assignment group. -/
def canvasFreshId (s : CanvasState) : ℕ :=
  (s.groups.map (fun g => g.id)).foldr max 0 + 1

/-- Modelled from the spec: `createCategory` appends a group with the given
weight. -/
def canvasCreateGroup (s : CanvasState) (w : ℚ) : CanvasState :=
  { s with groups := s.groups ++ [{ id := canvasFreshId s, group_weight := w }] }

/-- Modelled from the spec: `enableWeightedGrading` sets the course flag. -/
def canvasEnableWeighted (s : CanvasState) : CanvasState :=
  { s with weightedEnabled := true }

/-- `setup_weighted_grading` acting on the Canvas course state, when every
LMS call succeeds: validate the weight total, create each category's group
in order, then enable weighted grading. -/
def setupOnCanvas (s : CanvasState) (cats : List SetupCategory) : CanvasState :=
  let total_weight := (cats.map (fun c => c.weight)).sum
  if 1/100 < |total_weight - 100| then s
  else canvasEnableWeighted (cats.foldl (fun st c => canvasCreateGroup st c.weight) s)

/-- `analyze_existing_setup` reading the Canvas course state. -/
def analyzeCanvas (s : CanvasState) : AnalysisResult :=
  analyze_existing_setup s.groups s.weightedEnabled s.assignments

/-! ## Helper lemmas -/

theorem round2_fixed (x : ℚ) (n : ℤ) (h : x * 100 = (n : ℚ)) : round2 x = x := by
  unfold round2
  rw [h, rhe_intCast, ← h]
  field_simp

theorem round2_zero : round2 0 = 0 := round2_fixed 0 0 (by norm_num)

theorem totalWeightOf_eq_zero (groups : List CanvasGroup)
    (h : ∀ g ∈ groups, g.group_weight = 0) : totalWeightOf groups = 0 := by
  unfold totalWeightOf
  apply List.sum_eq_zero
  intro x hx
  rcases List.mem_map.mp hx with ⟨g, hg, rfl⟩
  exact h g hg

/-! ## C9 -/

/-- C9: the claim that the `GradeCalculator` operations never raise for
data-model-conforming input (nullable score) fails: a graded assignment with
positive `points_possible` and a null score survives the
graded-and-has-points filter, and `float(a.get("score", 0))` in the
points-earned sum is `float(None)`, a `TypeError`, in both
`calculate_category_score` and `calculate_points_grade` — even though the
per-item percentage at line 45 guards the very same null.  The divisions
themselves are guarded: a category in which every item has zero
`points_possible` is filtered out and yields `percentage = 0` rather than a
`ZeroDivisionError`. -/
theorem calculator_raises_on_null_score :
    calculate_category_score [{ graded := true, points_possible := some 10, score := none }] 0 0
      = Except.error PyError.typeError ∧
    calculate_points_grade [{ graded := true, points_possible := some 10, score := none }]
      = Except.error PyError.typeError ∧
    calculate_points_grade [{ graded := true, points_possible := some 0, score := some 5 }]
      = Except.ok { percentage := 0, letter_grade := "F", points_earned := 0,
                    points_possible := 0 } := by
  refine ⟨?_, ?_, ?_⟩
  · simp [calculate_category_score, ppTruthy, sortByPct, List.insertionSort,
      applyDropRules, sumScores]
  · simp [calculate_points_grade, ppTruthy, sumScores]
  · simp [calculate_points_grade, ppTruthy, sumScores, round2_zero,
      percentage_to_letter, letterFromScale, GRADE_SCALE]
    norm_num

/-! ## C10 -/

/-- C10: with non-empty groups whose weights total exactly 0, the auto-fix
branch of `fix_existing_setup` computes `scale_factor = 100 / total_weight`
with no zero guard, so it raises `ZeroDivisionError` (and the method has no
`try`/`except` to convert it into an error-status result); conversely, when
the analyzed total weight is non-zero the auto branch always returns a
result, so the rescale is safe exactly under the precondition
`total_weight ≠ 0`. -/
theorem fix_auto_division_by_zero (groups : List CanvasGroup) (enabled : Bool)
    (assignments : List CanvasAssignment) (hne : groups ≠ [])
    (hzero : ∀ g ∈ groups, g.group_weight = 0) :
    fix_existing_setup groups enabled assignments "auto"
      = Except.error PyError.zeroDivisionError ∧
    ∀ (gs2 : List CanvasGroup) (en2 : Bool) (as2 : List CanvasAssignment),
      round2 (totalWeightOf gs2) ≠ 0 →
        ∃ out, fix_existing_setup gs2 en2 as2 "auto" = Except.ok (some out) := by
  constructor
  · have htotal : totalWeightOf groups = 0 := totalWeightOf_eq_zero groups hzero
    have hlen : 0 < groups.length := List.length_pos.mpr hne
    simp only [fix_existing_setup, analyze_existing_setup, htotal, round2_zero,
      if_neg (by decide : ¬("auto" : String) = "reset")]
    norm_num [hlen]
  · intro gs2 en2 as2 hnz
    simp only [fix_existing_setup, analyze_existing_setup,
      if_neg (by decide : ¬("auto" : String) = "reset")]
    by_cases hcond : 1/100 < |round2 (totalWeightOf gs2) - 100| ∧ 0 < gs2.length
    · simp only [hcond, if_true, hnz, if_false]
      exact ⟨_, rfl⟩
    · simp only [hcond, if_false]
      exact ⟨_, rfl⟩

/-- Witness for `fix_auto_division_by_zero` at a concrete single-group
course with weight 0. -/
theorem fix_auto_division_by_zero_witness :
    fix_existing_setup [{ id := 1, group_weight := 0 }] false [] "auto"
      = Except.error PyError.zeroDivisionError :=
  (fix_auto_division_by_zero [{ id := 1, group_weight := 0 }] false []
    (by simp) (by intro g hg; simp at hg; rw [hg])).1

/-! ## C5 -/

/-- C5 (amended): `what_if_target` computes
`needed_total = target/100 * (current_possible + remaining_possible)`,
`needed_remaining = needed_total - current_earned` and
`needed_pct = needed_remaining / remaining_possible * 100`, reporting the
(unclamped, 2-decimal-rounded) `needed_pct` with `achievable` exactly when
`needed_pct ≤ 100`; when `remaining_possible ≤ 0` but `total_possible > 0`
it reports `needed_score = 0` and `achievable` exactly when the current
percentage meets the target; but when `total_possible ≤ 0` (e.g. a course
with no points at all) it instead returns the early "No assignments
available" result that carries no `needed_score` at all. -/
theorem what_if_target_spec (ce cp rp t : ℚ) :
    (cp + rp ≤ 0 →
      what_if_target ce cp rp t =
        { achievable := false, needed_score := none, needed_percentage := none,
          message := WhatIfMsg.noAssignments }) ∧
    (0 < cp + rp → rp ≤ 0 →
      (what_if_target ce cp rp t).needed_score = some 0 ∧
      ((what_if_target ce cp rp t).achievable = true ↔ t ≤ ce / cp * 100)) ∧
    (0 < cp + rp → 0 < rp →
      (what_if_target ce cp rp t).needed_percentage
          = some (round2 ((t / 100 * (cp + rp) - ce) / rp * 100)) ∧
      (what_if_target ce cp rp t).needed_score
          = some (round2 (t / 100 * (cp + rp) - ce)) ∧
      ((what_if_target ce cp rp t).achievable = true
          ↔ (t / 100 * (cp + rp) - ce) / rp * 100 ≤ 100)) := by
  refine ⟨?_, ?_, ?_⟩
  · intro h
    simp only [what_if_target, h, if_true]
  · intro htot hrp
    have hcp : 0 < cp := by linarith
    simp only [what_if_target, not_le.mpr htot, if_false, hrp, if_true, hcp]
    refine ⟨trivial, ?_⟩
    simp
  · intro htot hrp
    have h1 : ¬ (cp + rp ≤ 0) := not_le.mpr htot
    have h2 : ¬ (rp ≤ 0) := not_le.mpr hrp
    simp only [what_if_target, h1, if_false, h2]
    by_cases h3 : 100 < (t / 100 * (cp + rp) - ce) / rp * 100
    · simp only [h3, if_true]
      refine ⟨trivial, trivial, ?_, ?_⟩
      · intro hF
        exact absurd hF (by simp)
      · intro hle
        exact absurd h3 (not_lt.mpr hle)
    · simp only [h3, if_false]
      exact ⟨trivial, trivial, fun _ => not_lt.mp h3, fun _ => trivial⟩

/-- C5 counterexample: at `(current_earned, current_possible,
remaining_possible, target) = (0, 0, 0, 90)` we have
`remaining_possible ≤ 0`, yet the result reports no `needed_score` (the
claim says `needed_score = 0` whenever `remaining_possible ≤ 0`). -/
theorem what_if_target_zero_total_no_needed_score :
    ((0:ℚ) ≤ 0) ∧ (what_if_target 0 0 0 90).needed_score = none ∧
      ¬ (what_if_target 0 0 0 90).needed_score = some 0 := by
  refine ⟨le_refl 0, ?_, ?_⟩ <;> simp [what_if_target]

/-- Witness for `what_if_target_spec` at the spec's example
`(450, 500, 200, 90)`: needed percentage 90, achievable. -/
theorem what_if_target_spec_witness :
    (what_if_target 450 500 200 90).needed_percentage = some 90 ∧
    (what_if_target 450 500 200 90).achievable = true := by
  obtain ⟨hp, _, hiff⟩ :=
    (what_if_target_spec 450 500 200 90).2.2 (by norm_num) (by norm_num)
  constructor
  · rw [hp]
    have hX : ((90:ℚ) / 100 * (500 + 200) - 450) / 200 * 100 = 90 := by norm_num
    rw [hX, round2_fixed 90 9000 (by norm_num)]
  · exact hiff.mpr (by norm_num)

/-! ## C4 -/

/-- The groups `[{weight:40},{weight:40},{weight:10}]` of the spec's example. -/
def exGroups904010 : List CanvasGroup :=
  [{ id := 1, group_weight := 40 }, { id := 2, group_weight := 40 },
   { id := 3, group_weight := 10 }]

/-- Assignments placing one assignment in each of the three example groups
(so no orphan or empty-group issue interferes). -/
def exAssignments123 : List CanvasAssignment :=
  [{ id := 10, assignment_group_id := some 1 },
   { id := 11, assignment_group_id := some 2 },
   { id := 12, assignment_group_id := some 3 }]

/-- C4 (amended): the total-weight check of `analyze_existing_setup` is
evaluated independently of the orphan/empty checks but only when weighted
grading is enabled on the course; in that case, whenever the group weights
total `W` with `|W - 100| > 0.01`, the result reports
`total_weight = round(W, 2)`, an issue carrying the deviating total, and a
directional suggestion with the exact amount (`add 100-W` when `W < 100`,
`reduce by W-100` when `W > 100`). -/
theorem analyze_weight_deviation (groups : List CanvasGroup)
    (assignments : List CanvasAssignment)
    (htot : 1/100 < |totalWeightOf groups - 100|) :
    (analyze_existing_setup groups true assignments).total_weight
        = round2 (totalWeightOf groups) ∧
    Issue.weightsTotal (totalWeightOf groups)
        ∈ (analyze_existing_setup groups true assignments).issues ∧
    (totalWeightOf groups < 100 →
      Suggestion.addWeight (100 - totalWeightOf groups)
        ∈ (analyze_existing_setup groups true assignments).suggestions) ∧
    (100 < totalWeightOf groups →
      Suggestion.reduceWeight (totalWeightOf groups - 100)
        ∈ (analyze_existing_setup groups true assignments).suggestions) := by
  have htot' : (100:ℚ)⁻¹ < |totalWeightOf groups - 100| := by
    rw [inv_eq_one_div]
    exact htot
  refine ⟨rfl, ?_, ?_, ?_⟩
  · simp [analyze_existing_setup, htot']
  · intro hlt
    simp [analyze_existing_setup, htot', hlt]
  · intro hgt
    have hnlt : ¬ (totalWeightOf groups < 100) := by linarith
    simp [analyze_existing_setup, htot', hnlt]

/-- C4 counterexample: on the example groups totalling 90 with weighted
grading NOT enabled on the course, the claim demands the deviation issue and
the "add 10%" suggestion anyway, but the code's check is gated on
`apply_assignment_group_weights`: the only issue raised is the
groups-without-weighting one. -/
theorem analyze_weight_deviation_needs_enabled :
    (analyze_existing_setup exGroups904010 false exAssignments123).total_weight = 90 ∧
    (analyze_existing_setup exGroups904010 false exAssignments123).issues
        = [Issue.multipleGroupsNotWeighted] ∧
    Issue.weightsTotal 90
        ∉ (analyze_existing_setup exGroups904010 false exAssignments123).issues ∧
    Suggestion.addWeight 10
        ∉ (analyze_existing_setup exGroups904010 false exAssignments123).suggestions := by
  have hr : round2 (90:ℚ) = 90 := round2_fixed 90 9000 (by norm_num)
  refine ⟨?_, ?_, ?_, ?_⟩ <;>
    norm_num [analyze_existing_setup, hr, exGroups904010, exAssignments123,
      isOrphan, groupIsEmpty, totalWeightOf]
  all_goals simp

/-- Witness for `analyze_weight_deviation` at the example groups (total 90)
with weighted grading enabled: the issue carries total 90 and the suggestion
says to add exactly 10%. -/
theorem analyze_weight_deviation_witness :
    Issue.weightsTotal 90
        ∈ (analyze_existing_setup exGroups904010 true exAssignments123).issues ∧
    Suggestion.addWeight 10
        ∈ (analyze_existing_setup exGroups904010 true exAssignments123).suggestions := by
  have hW : totalWeightOf exGroups904010 = 90 := by
    simp [totalWeightOf, exGroups904010]
    norm_num
  obtain ⟨-, hi, hs, -⟩ :=
    analyze_weight_deviation exGroups904010 exAssignments123
      (by rw [hW]; norm_num)
  rw [hW] at hi hs
  refine ⟨hi, ?_⟩
  have := hs (by norm_num)
  norm_num at this
  exact this

/-! ## C2 -/

/-- The raw score of an assignment whose score is present. -/
def scoreVal (a : Assignment) : ℚ :=
  match a.score with
  | none => 0
  | some s => s

theorem sumScores_eq (l : List Assignment) (h : ∀ a ∈ l, a.score ≠ none) :
    sumScores l = Except.ok ((l.map scoreVal).sum) := by
  induction l with
  | nil => rfl
  | cons a rest ih =>
    have ha := h a (List.mem_cons_self a rest)
    cases hsc : a.score with
    | none => exact absurd hsc ha
    | some s =>
      have hrest := ih (fun b hb => h b (List.mem_cons_of_mem a hb))
      simp only [sumScores, hsc, hrest, List.map_cons, List.sum_cons, scoreVal]

theorem ppTruthy_iff_pos (a : Assignment)
    (h : ∀ p, a.points_possible = some p → 0 ≤ p) :
    ppTruthy a = true ↔ ∃ p, a.points_possible = some p ∧ 0 < p := by
  unfold ppTruthy
  cases hpp : a.points_possible with
  | none => simp
  | some p =>
    have h0 := h p hpp
    simp only [decide_eq_true_eq]
    constructor
    · intro hne
      exact ⟨p, rfl, lt_of_le_of_ne h0 (Ne.symm hne)⟩
    · rintro ⟨q, hq, hqpos⟩
      rcases Option.some_inj.mp hq with rfl
      exact ne_of_gt hqpos

theorem ppVal_pos_of_truthy (a : Assignment)
    (h : ∀ p, a.points_possible = some p → 0 ≤ p) (ht : ppTruthy a = true) :
    0 < ppVal a := by
  rcases (ppTruthy_iff_pos a h).mp ht with ⟨p, hp, hppos⟩
  unfold ppVal
  rw [hp]
  exact hppos

theorem sortByPct_perm (l : List Assignment) : List.Perm (sortByPct l) l :=
  List.perm_insertionSort pctLE l

theorem applyDropRules_zero (l : List Assignment) : applyDropRules l 0 0 = l := by
  simp [applyDropRules]

/-- C2: with no drop rules, `calculate_category_score` returns null exactly
when no assignment is both graded and has positive `points_possible`
(for data-model-conforming input: non-negative possible points, and graded
filtered items carrying a score so the `float(None)` slip of C9 is not
triggered); otherwise its percentage is the 2-decimal rounding of
(sum of surviving raw scores) / (sum of surviving raw points_possible) * 100
— a ratio of summed points, not an average of per-item percentages. -/
theorem category_score_points_ratio (assignments : List Assignment)
    (hpp : ∀ a ∈ assignments, ∀ p, a.points_possible = some p → 0 ≤ p)
    (hsc : ∀ a ∈ assignments, a.graded = true → ppTruthy a = true → a.score ≠ none) :
    (calculate_category_score assignments 0 0 = Except.ok none ↔
      ∀ a ∈ assignments,
        ¬ (a.graded = true ∧ ∃ p, a.points_possible = some p ∧ 0 < p)) ∧
    (∀ cs, calculate_category_score assignments 0 0 = Except.ok (some cs) →
      cs.percentage = round2 (
        ((assignments.filter (fun a => a.graded && ppTruthy a)).map scoreVal).sum /
        ((assignments.filter (fun a => a.graded && ppTruthy a)).map ppVal).sum * 100)) := by
  classical
  set F := assignments.filter (fun a => a.graded && ppTruthy a) with hFdef
  have hmemF : ∀ a ∈ F, a ∈ assignments ∧ a.graded = true ∧ ppTruthy a = true := by
    intro a ha
    rcases List.mem_filter.mp ha with ⟨hmem, hpred⟩
    rcases (Bool.and_eq_true _ _).mp hpred with ⟨hg, ht⟩
    exact ⟨hmem, hg, ht⟩
  by_cases hF : F.isEmpty
  · have hFnil : F = [] := List.isEmpty_iff.mp hF
    have hcalc : calculate_category_score assignments 0 0 = Except.ok none := by
      simp only [calculate_category_score, ← hFdef, hF, if_true]
    constructor
    · rw [hcalc]
      simp only [true_iff]
      intro a hmem
      rintro ⟨hg, p, hp, hppos⟩
      have : a ∈ F := by
        rw [hFdef]
        refine List.mem_filter.mpr ⟨hmem, ?_⟩
        rw [hg, (ppTruthy_iff_pos a (hpp a hmem)).mpr ⟨p, hp, hppos⟩]
        rfl
      rw [hFnil] at this
      cases this
    · intro cs hcs
      rw [hcalc] at hcs
      cases hcs
  · have hFne : F ≠ [] := by
      intro hnil
      rw [hnil] at hF
      exact hF rfl
    have hperm : List.Perm (sortByPct F) F := sortByPct_perm F
    have hmemS : ∀ a ∈ sortByPct F, a ∈ F := fun a ha => hperm.mem_iff.mp ha
    have hsorted_ne : sortByPct F ≠ [] := by
      intro hnil
      have := hperm.length_eq
      rw [hnil] at this
      exact hFne (List.length_eq_zero.mp this.symm)
    have hsum : sumScores (sortByPct F) = Except.ok (((sortByPct F).map scoreVal).sum) := by
      apply sumScores_eq
      intro a ha
      rcases hmemF a (hmemS a ha) with ⟨hmem, hg, ht⟩
      exact hsc a hmem hg ht
    have hpos : 0 < (((sortByPct F).map ppVal)).sum := by
      apply List.sum_pos
      · intro x hx
        rcases List.mem_map.mp hx with ⟨a, ha, rfl⟩
        rcases hmemF a (hmemS a ha) with ⟨hmem, _, ht⟩
        exact ppVal_pos_of_truthy a (hpp a hmem) ht
      · intro hnil
        exact hsorted_ne (List.map_eq_nil_iff.mp hnil)
    have hFisE : F.isEmpty = false := by
      cases h : F.isEmpty
      · rfl
      · exact absurd h (by rw [List.isEmpty_iff] at h ⊢; exact fun _ => hFne h)
    have hSisE : (sortByPct F).isEmpty = false := by
      cases h : (sortByPct F).isEmpty
      · rfl
      · rw [List.isEmpty_iff] at h
        exact absurd h hsorted_ne
    have hcalc : calculate_category_score assignments 0 0 = Except.ok (some
        { points_earned := round2 (((sortByPct F).map scoreVal).sum)
          points_possible := round2 (((sortByPct F).map ppVal).sum)
          percentage := round2 ((((sortByPct F).map scoreVal).sum) /
            (((sortByPct F).map ppVal).sum) * 100)
          graded_count := (sortByPct F).length
          total_count := assignments.length }) := by
      simp only [calculate_category_score, ← hFdef, hFisE, Bool.false_eq_true, if_false,
        applyDropRules_zero, hSisE, hsum, hpos, if_true]
    have hscore_eq : ((sortByPct F).map scoreVal).sum = (F.map scoreVal).sum :=
      (hperm.map scoreVal).sum_eq
    have hpp_eq : ((sortByPct F).map ppVal).sum = (F.map ppVal).sum :=
      (hperm.map ppVal).sum_eq
    constructor
    · rw [hcalc]
      constructor
      · intro h
        cases h
      · intro hall
        rcases List.exists_mem_of_ne_nil F hFne with ⟨a, ha⟩
        rcases hmemF a ha with ⟨hmem, hg, ht⟩
        rcases (ppTruthy_iff_pos a (hpp a hmem)).mp ht with ⟨p, hp, hppos⟩
        exact absurd ⟨hg, p, hp, hppos⟩ (hall a hmem)
    · intro cs hcs
      rw [hcalc] at hcs
      rcases Option.some_inj.mp (Except.ok.inj hcs) with rfl
      simp only [hscore_eq, hpp_eq]

/-- The spec's two-item category `{10/10, 0/90}`. -/
def exTwoItems : List Assignment :=
  [{ graded := true, points_possible := some 10, score := some 10 },
   { graded := true, points_possible := some 90, score := some 0 }]

theorem exTwoItems_eval :
    calculate_category_score exTwoItems 0 0 = Except.ok (some
      { points_earned := 10, points_possible := 100, percentage := 10,
        graded_count := 2, total_count := 2 }) := by
  have h10 : round2 (10:ℚ) = 10 := round2_fixed 10 1000 (by norm_num)
  have h100 : round2 (100:ℚ) = 100 := round2_fixed 100 10000 (by norm_num)
  norm_num [calculate_category_score, exTwoItems, ppTruthy, sortByPct,
    List.insertionSort, List.orderedInsert, pctLE, itemPct, ppVal,
    applyDropRules, sumScores, scoreVal, h10, h100]

/-- Witness for `category_score_points_ratio` at the spec's `{10/10, 0/90}`
category: the percentage is the points ratio 10/100 = 10%, not the
per-item-percentage average 50%. -/
theorem category_score_points_ratio_witness :
    calculate_category_score exTwoItems 0 0 = Except.ok (some
      { points_earned := 10, points_possible := 100, percentage := 10,
        graded_count := 2, total_count := 2 }) ∧
    round2 (((exTwoItems.filter (fun a => a.graded && ppTruthy a)).map scoreVal).sum /
      ((exTwoItems.filter (fun a => a.graded && ppTruthy a)).map ppVal).sum * 100) = 10 := by
  refine ⟨exTwoItems_eval, ?_⟩
  have h := (category_score_points_ratio exTwoItems
    (by intro a ha p hp; fin_cases ha <;> simp_all <;> linarith)
    (by intro a ha hg ht; fin_cases ha <;> simp_all)).2
    _ exTwoItems_eval
  exact h.symm

/-! ## C3 -/

/-- Items actually removed from the front by `drop_lowest` (0 when the guard
`len(scored) > drop_lowest` fails). -/
def lowCut (n k : ℕ) : ℕ := if 0 < k ∧ k < n then k else 0

/-- Items actually removed from the tail by `drop_highest` (0 when the guard
fails), out of the `n1` items left after `drop_lowest`. -/
def highCut (n1 m : ℕ) : ℕ := if 0 < m ∧ m < n1 then m else 0

/-- Number of surviving items after both drop rules on `n` graded items. -/
def dropCount (n k m : ℕ) : ℕ := (n - lowCut n k) - highCut (n - lowCut n k) m

theorem dropCount_pos (n k m : ℕ) (h : 0 < n) : 1 ≤ dropCount n k m := by
  unfold dropCount lowCut highCut
  split_ifs <;> omega

theorem dropCount_no_high (n k : ℕ) (h : 0 < n) : max 1 (n - k) ≤ dropCount n k 0 := by
  unfold dropCount lowCut highCut
  split_ifs <;> omega

theorem applyDropRules_length (l : List Assignment) (k m : ℕ) :
    (applyDropRules l k m).length = dropCount l.length k m := by
  unfold applyDropRules dropCount lowCut highCut
  by_cases h1 : 0 < k ∧ k < l.length
  · simp only [if_pos h1]
    by_cases h2 : 0 < m ∧ m < (l.drop k).length
    · have h2' : 0 < m ∧ m < l.length - k := by
        simpa [List.length_drop] using h2
      simp only [if_pos h2, if_pos h2', List.length_take, List.length_drop]
      omega
    · have h2' : ¬ (0 < m ∧ m < l.length - k) := by
        simpa [List.length_drop] using h2
      simp only [if_neg h2, if_neg h2', List.length_drop]
      omega
  · simp only [if_neg h1]
    have hz : l.length - 0 = l.length := by omega
    rw [hz]
    by_cases h2 : 0 < m ∧ m < l.length
    · simp only [if_pos h2, List.length_take]
      omega
    · simp only [if_neg h2]
      omega

/-- The ascending pct-sorted graded items of a category (line 48). -/
def sortedGraded (as : List Assignment) : List Assignment :=
  sortByPct (as.filter (fun a => a.graded && ppTruthy a))

/-- The sorted graded items left after the `drop_lowest` rule. -/
def afterLowDrop (as : List Assignment) (k : ℕ) : List Assignment :=
  (sortedGraded as).drop (lowCut (sortedGraded as).length k)

/-- The surviving items of a category after both drop rules. -/
def survivorsOf (as : List Assignment) (k m : ℕ) : List Assignment :=
  applyDropRules (sortedGraded as) k m

theorem survivorsOf_eq_take (as : List Assignment) (k m : ℕ) :
    survivorsOf as k m = (afterLowDrop as k).take
      ((afterLowDrop as k).length - highCut (afterLowDrop as k).length m) := by
  unfold survivorsOf afterLowDrop applyDropRules lowCut highCut
  by_cases h1 : 0 < k ∧ k < (sortedGraded as).length
  · simp only [if_pos h1]
    by_cases h2 : 0 < m ∧ m < ((sortedGraded as).drop k).length
    · simp only [if_pos h2]
    · simp only [if_neg h2, Nat.sub_zero, List.take_length]
  · simp only [if_neg h1, List.drop_zero]
    by_cases h2 : 0 < m ∧ m < (sortedGraded as).length
    · simp only [if_pos h2]
    · simp only [if_neg h2, Nat.sub_zero, List.take_length]

theorem applyDropRules_sublist (l : List Assignment) (k m : ℕ) :
    List.Sublist (applyDropRules l k m) l := by
  unfold applyDropRules
  by_cases h1 : 0 < k ∧ k < l.length
  · simp only [if_pos h1]
    by_cases h2 : 0 < m ∧ m < (l.drop k).length
    · simp only [if_pos h2]
      exact (List.take_sublist _ _).trans (List.drop_sublist _ _)
    · simp only [if_neg h2]
      exact List.drop_sublist _ _
  · simp only [if_neg h1]
    by_cases h2 : 0 < m ∧ m < l.length
    · simp only [if_pos h2]
      exact List.take_sublist _ _
    · simp only [if_neg h2]
      exact List.Sublist.refl l

theorem pairwise_take_drop {R : Assignment → Assignment → Prop}
    {l : List Assignment} (h : List.Pairwise R l) (i : ℕ) :
    ∀ x ∈ l.take i, ∀ y ∈ l.drop i, R x y := by
  have hsplit := List.take_append_drop i l
  rw [← hsplit] at h
  exact (List.pairwise_append.mp h).2.2

theorem calculate_category_score_eval (as : List Assignment) (k m : ℕ)
    (hn : 0 < (sortedGraded as).length)
    (hsc : ∀ a ∈ as, a.graded = true → ppTruthy a = true → a.score ≠ none) :
    calculate_category_score as k m = Except.ok (some
      { points_earned := round2 (((survivorsOf as k m).map scoreVal).sum)
        points_possible := round2 (((survivorsOf as k m).map ppVal).sum)
        percentage := round2 (if 0 < ((survivorsOf as k m).map ppVal).sum then
            (((survivorsOf as k m).map scoreVal).sum) /
              (((survivorsOf as k m).map ppVal).sum) * 100 else 0)
        graded_count := (survivorsOf as k m).length
        total_count := as.length }) := by
  classical
  have hlen : (survivorsOf as k m).length = dropCount (sortedGraded as).length k m :=
    applyDropRules_length (sortedGraded as) k m
  have hpos : 1 ≤ (survivorsOf as k m).length := by
    rw [hlen]
    exact dropCount_pos _ k m hn
  have hFisE : (as.filter (fun a => a.graded && ppTruthy a)).isEmpty = false := by
    have hperm := sortByPct_perm (as.filter (fun a => a.graded && ppTruthy a))
    have : (as.filter (fun a => a.graded && ppTruthy a)).length
        = (sortedGraded as).length := (hperm.length_eq).symm
    cases h : (as.filter (fun a => a.graded && ppTruthy a)).isEmpty
    · rfl
    · rw [List.isEmpty_iff] at h
      rw [h] at this
      simp at this
      omega
  have hSisE : (survivorsOf as k m).isEmpty = false := by
    cases h : (survivorsOf as k m).isEmpty
    · rfl
    · rw [List.isEmpty_iff] at h
      rw [h] at hpos
      simp at hpos
  have hsub : List.Sublist (survivorsOf as k m) (sortedGraded as) :=
    applyDropRules_sublist (sortedGraded as) k m
  have hsum : sumScores (survivorsOf as k m)
      = Except.ok (((survivorsOf as k m).map scoreVal).sum) := by
    apply sumScores_eq
    intro a ha
    have hmem : a ∈ sortedGraded as := hsub.subset ha
    have hmemF : a ∈ as.filter (fun a => a.graded && ppTruthy a) :=
      (sortByPct_perm _).mem_iff.mp hmem
    rcases List.mem_filter.mp hmemF with ⟨hasmem, hpred⟩
    rcases (Bool.and_eq_true _ _).mp hpred with ⟨hg, ht⟩
    exact hsc a hasmem hg ht
  simp only [calculate_category_score, hFisE, Bool.false_eq_true, if_false]
  have hrw : applyDropRules (sortByPct (as.filter fun a => a.graded && ppTruthy a)) k m
      = survivorsOf as k m := rfl
  rw [hrw, hSisE, hsum]
  simp only [Bool.false_eq_true, if_false]

/-- C3 (amended): `calculate_category_score` sorts the graded items
ascending by per-item percentage, removes `drop_lowest` items from the
front (skipping the rule when it would empty the set, i.e. when
`drop_lowest ≥ n`), then `drop_highest` items from the tail of what remains
(again skipping rather than emptying); every item removed by `drop_lowest`
scores no higher than every item kept, and every item removed by
`drop_highest` scores no lower than every survivor.  The surviving count is
`dropCount n drop_lowest drop_highest`, which is always at least 1 — in
particular `drop_lowest ≥ n` leaves all `n` items — and at least
`max 1 (n - drop_lowest)` whenever `drop_highest = 0`; with a positive
`drop_highest` the count can drop below `max 1 (n - drop_lowest)` (see the
counterexample), which is the one correction to the claim. -/
theorem category_score_drop_mechanics (as : List Assignment) (k m : ℕ)
    (hn : 0 < (sortedGraded as).length)
    (hsc : ∀ a ∈ as, a.graded = true → ppTruthy a = true → a.score ≠ none) :
    ∃ cs, calculate_category_score as k m = Except.ok (some cs) ∧
      cs.graded_count = dropCount (sortedGraded as).length k m ∧
      1 ≤ cs.graded_count ∧
      (m = 0 → max 1 ((sortedGraded as).length - k) ≤ cs.graded_count) ∧
      (∀ x ∈ (sortedGraded as).take (lowCut (sortedGraded as).length k),
        ∀ y ∈ afterLowDrop as k, itemPct x ≤ itemPct y) ∧
      (∀ y ∈ survivorsOf as k m,
        ∀ z ∈ (afterLowDrop as k).drop
            ((afterLowDrop as k).length - highCut (afterLowDrop as k).length m),
          itemPct y ≤ itemPct z) := by
  classical
  have hlen : (survivorsOf as k m).length = dropCount (sortedGraded as).length k m :=
    applyDropRules_length (sortedGraded as) k m
  have hpos : 1 ≤ (survivorsOf as k m).length := by
    rw [hlen]
    exact dropCount_pos _ k m hn
  have hFisE : (as.filter (fun a => a.graded && ppTruthy a)).isEmpty = false := by
    have hperm := sortByPct_perm (as.filter (fun a => a.graded && ppTruthy a))
    have : (as.filter (fun a => a.graded && ppTruthy a)).length
        = (sortedGraded as).length := (hperm.length_eq).symm
    cases h : (as.filter (fun a => a.graded && ppTruthy a)).isEmpty
    · rfl
    · rw [List.isEmpty_iff] at h
      rw [h] at this
      simp at this
      omega
  have hSisE : (survivorsOf as k m).isEmpty = false := by
    cases h : (survivorsOf as k m).isEmpty
    · rfl
    · rw [List.isEmpty_iff] at h
      rw [h] at hpos
      simp at hpos
  have hcalc := calculate_category_score_eval as k m hn hsc
  have hpw : List.Pairwise pctLE (sortedGraded as) :=
    List.sorted_insertionSort pctLE (as.filter (fun a => a.graded && ppTruthy a))
  have hpw2 : List.Pairwise pctLE (afterLowDrop as k) :=
    hpw.sublist (List.drop_sublist _ _)
  refine ⟨_, hcalc, rfl.trans hlen, ?_, ?_, ?_, ?_⟩
  · exact hlen ▸ hpos
  · intro hm0
    rw [hlen]  -- goal about dropCount
    exact hm0 ▸ dropCount_no_high _ k hn
  · intro x hx y hy
    exact pairwise_take_drop hpw (lowCut (sortedGraded as).length k) x hx y hy
  · intro y hy z hz
    rw [survivorsOf_eq_take] at hy
    exact pairwise_take_drop hpw2
      ((afterLowDrop as k).length - highCut (afterLowDrop as k).length m) y hy z hz

/-- Three graded 10-point items scoring 5, 7, 9 (percentages 50, 70, 90). -/
def exThreeItems : List Assignment :=
  [{ graded := true, points_possible := some 10, score := some 5 },
   { graded := true, points_possible := some 10, score := some 7 },
   { graded := true, points_possible := some 10, score := some 9 }]

/-- The surviving-item count of a category-score result (0 for null/error). -/
def catScoreCount (r : Except PyError (Option CategoryScore)) : ℕ :=
  match r with
  | Except.ok (some cs) => cs.graded_count
  | _ => 0

/-- C3 counterexample: on 3 graded items with `drop_lowest = 1` and
`drop_highest = 1`, only 1 item survives, below the claimed lower bound
`max 1 (n - drop_lowest) = 2`: the claim's bound ignores the additional
`drop_highest` removals. -/
theorem category_score_drop_bound_fails :
    (exThreeItems.filter (fun a => a.graded && ppTruthy a)).length = 3 ∧
    catScoreCount (calculate_category_score exThreeItems 1 1) = 1 ∧
    ¬ (max 1 (3 - 1) ≤ catScoreCount (calculate_category_score exThreeItems 1 1)) := by
  have h7 : round2 (7:ℚ) = 7 := round2_fixed 7 700 (by norm_num)
  have h10 : round2 (10:ℚ) = 10 := round2_fixed 10 1000 (by norm_num)
  have h70 : round2 (70:ℚ) = 70 := round2_fixed 70 7000 (by norm_num)
  have heval : calculate_category_score exThreeItems 1 1 = Except.ok (some
      { points_earned := 7, points_possible := 10, percentage := 70,
        graded_count := 1, total_count := 3 }) := by
    norm_num [calculate_category_score, exThreeItems, ppTruthy, sortByPct,
      List.insertionSort, List.orderedInsert, pctLE, itemPct, ppVal,
      applyDropRules, sumScores, scoreVal, h7, h10, h70]
  refine ⟨?_, ?_, ?_⟩
  · norm_num [exThreeItems, ppTruthy]
  · rw [heval]
    rfl
  · rw [heval]
    norm_num [catScoreCount]

/-- Witness for `category_score_drop_mechanics` at 3 graded items with
`drop_lowest = 1`, `drop_highest = 0`: 2 items survive, meeting the
`max 1 (n - k)` bound. -/
theorem category_score_drop_mechanics_witness :
    catScoreCount (calculate_category_score exThreeItems 1 0) = dropCount 3 1 0 ∧
    1 ≤ dropCount 3 1 0 ∧ max 1 (3 - 1) ≤ dropCount 3 1 0 := by
  have hn3 : (sortedGraded exThreeItems).length = 3 := by
    norm_num [sortedGraded, sortByPct, exThreeItems, ppTruthy,
      List.insertionSort, List.orderedInsert, pctLE, itemPct, ppVal]
  obtain ⟨cs, hcalc, hc1, hc2, hc3, -, -⟩ :=
    category_score_drop_mechanics exThreeItems 1 0
      (by rw [hn3]; norm_num)
      (by intro a ha hg ht; fin_cases ha <;> simp_all)
  rw [hn3] at hc1 hc3
  have hcnt : catScoreCount (calculate_category_score exThreeItems 1 0)
      = cs.graded_count := by
    rw [hcalc]
    rfl
  refine ⟨?_, ?_, ?_⟩
  · rw [hcnt, hc1]
  · rw [← hc1]
    exact hc2
  · rw [← hc1]
    exact hc3 rfl

/-! ## C1 -/

/-- Weight a category contributes to `total_weight`: its weight when its
category score is non-null and its weight is positive, else nothing. -/
def twContrib (c : Category) : ℚ :=
  match catResult c with
  | Except.ok (some _) => if 0 < c.weight then c.weight else 0
  | _ => 0

/-- Contribution of a category to `weighted_sum`. -/
def wsContrib (c : Category) : ℚ :=
  match catResult c with
  | Except.ok (some s) => if 0 < c.weight then s.percentage * (c.weight / 100) else 0
  | _ => 0

/-- Contribution of a category to the unweighted `total_earned` pool. -/
def teContrib (c : Category) : ℚ :=
  match catResult c with
  | Except.ok (some s) => if 0 < c.weight then 0 else s.points_earned
  | _ => 0

/-- Contribution of a category to the unweighted `total_possible` pool. -/
def tpContrib (c : Category) : ℚ :=
  match catResult c with
  | Except.ok (some s) => if 0 < c.weight then 0 else s.points_possible
  | _ => 0

/-- `total_weight` accumulated over the contributing categories. -/
def TWf : List Category → ℚ
  | [] => 0
  | c :: rest => twContrib c + TWf rest

/-- `weighted_sum` accumulated over the contributing categories. -/
def WSf : List Category → ℚ
  | [] => 0
  | c :: rest => wsContrib c + WSf rest

def TEf : List Category → ℚ
  | [] => 0
  | c :: rest => teContrib c + TEf rest

def TPf : List Category → ℚ
  | [] => 0
  | c :: rest => tpContrib c + TPf rest

/-- The `category_scores` entries accumulated over the non-null categories. -/
def entriesOf : List Category → List (String × CategoryEntry)
  | [] => []
  | c :: rest =>
    (match catResult c with
      | Except.ok (some s) => [(c.name,
          { percentage := s.percentage, points_earned := s.points_earned,
            points_possible := s.points_possible, weight := c.weight,
            graded_count := s.graded_count, total_count := s.total_count })]
      | _ => []) ++ entriesOf rest

theorem catResult_ok (c : Category)
    (h : ∀ a ∈ c.assignments, a.graded = true → ppTruthy a = true → a.score ≠ none) :
    ∃ r, catResult c = Except.ok r := by
  by_cases hF : (c.assignments.filter (fun a => a.graded && ppTruthy a)).isEmpty
  · exact ⟨none, by simp only [catResult, calculate_category_score, hF, if_true]⟩
  · have hn : 0 < (sortedGraded c.assignments).length := by
      rcases Nat.eq_zero_or_pos (sortedGraded c.assignments).length with hz | hp
      · exfalso
        have hlen2 : (sortedGraded c.assignments).length
            = (c.assignments.filter (fun a => a.graded && ppTruthy a)).length :=
          (sortByPct_perm _).length_eq
        rw [hz] at hlen2
        have hnil := List.length_eq_zero.mp hlen2.symm
        rw [hnil] at hF
        exact hF rfl
      · exact hp
    exact ⟨_, calculate_category_score_eval c.assignments c.drop_lowest c.drop_highest hn h⟩

theorem wgLoop_spec (cats : List Category)
    (hok : ∀ c ∈ cats, ∃ r, catResult c = Except.ok r) :
    ∀ tw ws te tp acc, wgLoop cats tw ws te tp acc = Except.ok
      (tw + TWf cats, ws + WSf cats, te + TEf cats, tp + TPf cats,
        acc ++ entriesOf cats) := by
  induction cats with
  | nil =>
    intro tw ws te tp acc
    simp [wgLoop, TWf, WSf, TEf, TPf, entriesOf]
  | cons c rest ih =>
    intro tw ws te tp acc
    obtain ⟨r, hr⟩ := hok c (List.mem_cons_self c rest)
    have hrest := ih (fun d hd => hok d (List.mem_cons_of_mem c hd))
    cases r with
    | none =>
      simp only [wgLoop, hr, hrest, TWf, WSf, TEf, TPf, entriesOf, twContrib,
        wsContrib, teContrib, tpContrib]
      simp only [List.nil_append, Except.ok.injEq, Prod.mk.injEq]
      refine ⟨by ring, by ring, by ring, by ring, trivial⟩
    | some s =>
      by_cases hw : 0 < c.weight
      · simp only [wgLoop, hr, if_pos hw, hrest, TWf, WSf, TEf, TPf, entriesOf,
          twContrib, wsContrib, teContrib, tpContrib, List.append_assoc,
          List.singleton_append, Except.ok.injEq, Prod.mk.injEq]
        refine ⟨by ring, by ring, by ring, by ring, trivial⟩
      · simp only [wgLoop, hr, if_neg hw, hrest, TWf, WSf, TEf, TPf, entriesOf,
          twContrib, wsContrib, teContrib, tpContrib, List.append_assoc,
          List.singleton_append, Except.ok.injEq, Prod.mk.injEq]
        refine ⟨by ring, by ring, by ring, by ring, trivial⟩

theorem wgLoop_skip_none (pre post : List Category) (c : Category)
    (hc : catResult c = Except.ok none) :
    ∀ tw ws te tp acc, wgLoop (pre ++ c :: post) tw ws te tp acc
      = wgLoop (pre ++ post) tw ws te tp acc := by
  induction pre with
  | nil =>
    intro tw ws te tp acc
    simp only [List.nil_append, wgLoop, hc]
  | cons d rest ih =>
    intro tw ws te tp acc
    simp only [List.cons_append, wgLoop]
    cases hd : catResult d with
    | error e => rfl
    | ok r =>
      cases r with
      | none => exact ih _ _ _ _ _
      | some s =>
        by_cases hw : 0 < d.weight
        · simp only [if_pos hw]
          exact ih _ _ _ _ _
        · simp only [if_neg hw]
          exact ih _ _ _ _ _

/-- C1: `calculate_weighted_grade` skips categories whose category score is
null — inserting such a category anywhere in the list leaves the result
unchanged, so it contributes neither weight nor points — and whenever the
accumulated weight of the contributing weighted categories is positive, the
final percentage is the 2-decimal rounding of
`weighted_sum / total_weight * 100`, rescaling by earned weight.
(Hypothesis: graded filtered items carry a score, so the C9 `float(None)`
`TypeError` is not triggered.) -/
theorem weighted_grade_rescales (cats : List Category)
    (hok : ∀ c ∈ cats, ∀ a ∈ c.assignments,
      a.graded = true → ppTruthy a = true → a.score ≠ none) :
    (∃ res, calculate_weighted_grade cats = Except.ok res ∧
      (0 < TWf cats → res.percentage = round2 (WSf cats / TWf cats * 100))) ∧
    (∀ (pre post : List Category) (c : Category), catResult c = Except.ok none →
      calculate_weighted_grade (pre ++ c :: post)
        = calculate_weighted_grade (pre ++ post)) := by
  constructor
  · have hok2 : ∀ c ∈ cats, ∃ r, catResult c = Except.ok r :=
      fun c hc => catResult_ok c (hok c hc)
    have hloop := wgLoop_spec cats hok2 0 0 0 0 []
    simp only [zero_add, List.nil_append] at hloop
    cases hres : calculate_weighted_grade cats with
    | error e =>
      exfalso
      simp only [calculate_weighted_grade, hloop] at hres
      exact Except.noConfusion hres
    | ok res =>
      refine ⟨res, rfl, ?_⟩
      intro htw
      simp only [calculate_weighted_grade, hloop] at hres
      have hr2 := Except.ok.inj hres
      rw [← hr2]
      show round2 (if 0 < TWf cats then WSf cats / TWf cats * 100
        else if 0 < TPf cats then TEf cats / TPf cats * 100 else 0)
          = round2 (WSf cats / TWf cats * 100)
      rw [if_pos htw]
  · intro pre post c hc
    simp only [calculate_weighted_grade, wgLoop_skip_none pre post c hc]

/-- The graded-at-100% category of the spec's rescaling example. -/
def exCatA : Category :=
  { name := "A", weight := 50,
    assignments := [{ graded := true, points_possible := some 100, score := some 100 }],
    drop_lowest := 0, drop_highest := 0 }

/-- The no-graded-work category of the spec's rescaling example. -/
def exCatB : Category :=
  { name := "B", weight := 50,
    assignments := [{ graded := false, points_possible := some 100, score := none }],
    drop_lowest := 0, drop_highest := 0 }

def exRescaleCats : List Category := [exCatA, exCatB]

/-- Witness for `weighted_grade_rescales` at the spec's example
`[{weight:50, all graded at 100%}, {weight:50, no graded work}]`: the grade
is 100, not 50, because `total_weight` rescales to the 50 that has data. -/
theorem weighted_grade_rescales_witness :
    TWf exRescaleCats = 50 ∧
    calculate_weighted_grade exRescaleCats = Except.ok
      { percentage := 100, letter_grade := "A", points_earned := 0, points_possible := 0,
        category_scores := [("A",
          { percentage := 100, points_earned := 100, points_possible := 100,
            weight := 50, graded_count := 1, total_count := 1 })] } ∧
    round2 (WSf exRescaleCats / TWf exRescaleCats * 100) = 100 := by
  have h100 : round2 (100:ℚ) = 100 := round2_fixed 100 10000 (by norm_num)
  have hA : catResult exCatA = Except.ok (some
      { points_earned := 100, points_possible := 100, percentage := 100,
        graded_count := 1, total_count := 1 }) := by
    norm_num [catResult, exCatA, calculate_category_score, ppTruthy, sortByPct,
      List.insertionSort, List.orderedInsert, pctLE, itemPct, ppVal,
      applyDropRules, sumScores, scoreVal, h100]
  have hB : catResult exCatB = Except.ok none := by
    norm_num [catResult, exCatB, calculate_category_score, ppTruthy]
  have hwA : (0:ℚ) < exCatA.weight := by norm_num [exCatA]
  have hTW : TWf exRescaleCats = 50 := by
    simp only [TWf, exRescaleCats, twContrib, hA, hB, if_pos hwA]
    norm_num [exCatA]
  have hWS : WSf exRescaleCats = 50 := by
    simp only [WSf, exRescaleCats, wsContrib, hA, hB, if_pos hwA]
    norm_num [exCatA]
  have hhyp : ∀ c ∈ exRescaleCats, ∀ a ∈ c.assignments,
      a.graded = true → ppTruthy a = true → a.score ≠ none := by
    intro c hc a ha
    fin_cases hc <;> simp_all [exCatA, exCatB]
  obtain ⟨res, hres, himp⟩ := (weighted_grade_rescales exRescaleCats hhyp).1
  have hform : round2 (WSf exRescaleCats / TWf exRescaleCats * 100) = 100 := by
    rw [hTW, hWS]
    norm_num [h100]
  have hok2 : ∀ c ∈ exRescaleCats, ∃ r, catResult c = Except.ok r :=
    fun c hc => catResult_ok c (hhyp c hc)
  have hloop := wgLoop_spec exRescaleCats hok2 0 0 0 0 []
  simp only [zero_add, List.nil_append] at hloop
  have hTE : TEf exRescaleCats = 0 := by
    simp only [TEf, exRescaleCats, teContrib, hA, hB, if_pos hwA]
    norm_num
  have hTP : TPf exRescaleCats = 0 := by
    simp only [TPf, exRescaleCats, tpContrib, hA, hB, if_pos hwA]
    norm_num
  have hentries : entriesOf exRescaleCats = [("A",
      { percentage := 100, points_earned := 100, points_possible := 100,
        weight := 50, graded_count := 1, total_count := 1 })] := by
    simp only [entriesOf, exRescaleCats, hA, hB]
    norm_num [exCatA]
  have heval : calculate_weighted_grade exRescaleCats = Except.ok
      { percentage := 100, letter_grade := "A", points_earned := 0, points_possible := 0,
        category_scores := [("A",
          { percentage := 100, points_earned := 100, points_possible := 100,
            weight := 50, graded_count := 1, total_count := 1 })] } := by
    simp only [calculate_weighted_grade, hloop, hTW, hWS, hTE, hTP, hentries]
    norm_num [h100, round2_zero, percentage_to_letter, letterFromScale, GRADE_SCALE]
  exact ⟨hTW, heval, hform⟩

/-! ## C6 -/

/-- C6: `setup_weighted_grading` validates that the category weights total
100 within 0.01 first; on violation it returns a structured error-status
result before issuing any LMS call (empty call trace); and for every
outcome of the LMS steps, the method returns either a success result or a
structured error-status result carrying the failure message — a raised
step exception never propagates. -/
theorem setup_validates_before_calls (env : LMSOutcomes)
    (categories : List SetupCategory) (hasRules : Bool)
    (hbad : 1/100 < |((categories.map (fun c => c.weight)).sum) - 100|) :
    (setup_weighted_grading env categories hasRules
      = ({ status := "error",
           message := some (SetupMsg.weightsNotHundred
             ((categories.map (fun c => c.weight)).sum)),
           groups_created := none, weighted_grading_enabled := none }, [])) ∧
    ∀ (env2 : LMSOutcomes) (cats2 : List SetupCategory) (rules2 : Bool),
      (setup_weighted_grading env2 cats2 rules2).1.status = "success" ∨
      ∃ msg, (setup_weighted_grading env2 cats2 rules2).1
        = { status := "error", message := some msg,
            groups_created := none, weighted_grading_enabled := none } := by
  constructor
  · simp only [setup_weighted_grading, if_pos hbad]
  · intro env2 cats2 rules2
    simp only [setup_weighted_grading]
    by_cases hb : 1/100 < |((cats2.map (fun c => c.weight)).sum) - 100|
    · right
      refine ⟨SetupMsg.weightsNotHundred ((cats2.map (fun c => c.weight)).sum), ?_⟩
      simp only [if_pos hb]
    · simp only [if_neg hb]
      rcases hcl : createGroupsLoop env2 cats2 with ⟨res, tr⟩
      cases res with
      | error e =>
        right
        exact ⟨SetupMsg.stepFailed e, rfl⟩
      | ok n =>
        simp only [setupAfterGroups]
        cases henable : env2.enableWeighted with
        | error e =>
          right
          exact ⟨SetupMsg.stepFailed e, rfl⟩
        | ok u =>
          cases hrules : rules2 with
          | false =>
            simp only [Bool.false_eq_true, if_false]
            cases hver : env2.verify with
            | error e =>
              right
              exact ⟨SetupMsg.stepFailed e, rfl⟩
            | ok v =>
              left
              rfl
          | true =>
            simp only [if_true]
            cases happ : env2.applyGlobalRules with
            | error e =>
              right
              exact ⟨SetupMsg.stepFailed e, rfl⟩
            | ok w =>
              cases hver : env2.verify with
              | error e =>
                right
                exact ⟨SetupMsg.stepFailed e, rfl⟩
              | ok v =>
                left
                rfl

/-- An LMS environment in which every call succeeds. -/
def exEnvOk : LMSOutcomes :=
  { createGroup := fun _ => Except.ok (), enableWeighted := Except.ok (),
    applyGlobalRules := Except.ok (), verify := Except.ok () }

/-- Categories whose weights total 90, violating the setup validation. -/
def exBadCats : List SetupCategory :=
  [{ name := "Quizzes", weight := 50 }, { name := "Exams", weight := 40 }]

/-- Witness for `setup_validates_before_calls`: weights totalling 90 yield
an error-status result with no LMS calls issued. -/
theorem setup_validates_before_calls_witness :
    setup_weighted_grading exEnvOk exBadCats false
      = ({ status := "error", message := some (SetupMsg.weightsNotHundred 90),
           groups_created := none, weighted_grading_enabled := none }, []) := by
  have hsum : ((exBadCats.map (fun c => c.weight)).sum) = 90 := by
    norm_num [exBadCats]
  have h := (setup_validates_before_calls exEnvOk exBadCats false
    (by rw [hsum]; norm_num)).1
  rw [hsum] at h
  exact h

/-! ## C7 -/

/-- Sum of the new weights carried by the `updateWeight` calls of a fix
trace. -/
def updatedWeightSum : List FixCall → ℚ
  | [] => 0
  | FixCall.updateWeight _ w :: rest => w + updatedWeightSum rest
  | FixCall.enableWeighted :: rest => updatedWeightSum rest
  | FixCall.deleteGroup _ :: rest => updatedWeightSum rest

theorem updatedWeightSum_map_update (f : CanvasGroup → ℚ) (gs : List CanvasGroup) :
    updatedWeightSum (gs.map (fun g => FixCall.updateWeight g.id (f g)))
      = (gs.map f).sum := by
  induction gs with
  | nil => rfl
  | cons g rest ih =>
    simp only [List.map_cons, List.sum_cons, updatedWeightSum, ih]

theorem sum_round2_bound (l : List ℚ) :
    |(l.map round2).sum - l.sum| ≤ l.length * (1/200) := by
  induction l with
  | nil => simp
  | cons x rest ih =>
    simp only [List.map_cons, List.sum_cons, List.length_cons]
    have h1 : round2 x + (rest.map round2).sum - (x + rest.sum)
        = (round2 x - x) + ((rest.map round2).sum - rest.sum) := by ring
    rw [h1]
    have h2 := abs_add (round2 x - x) ((rest.map round2).sum - rest.sum)
    have h3 := round2_abs_le x
    have h4 : ((rest.length + 1 : ℕ) : ℚ) * (1/200)
        = (rest.length : ℚ) * (1/200) + 1/200 := by push_cast; ring
    rw [h4]
    linarith

theorem sum_map_mul_const (gs : List CanvasGroup) (c : ℚ) :
    (gs.map (fun g => g.group_weight * c)).sum = totalWeightOf gs * c := by
  induction gs with
  | nil => simp [totalWeightOf]
  | cons g rest ih =>
    simp only [List.map_cons, List.sum_cons, ih, totalWeightOf]
    ring

/-- C7 (amended): when the analyzed total weight `T` (which, for weights
stored at 2-decimal granularity, equals the raw sum) deviates from 100 by
more than 0.01, is non-zero (else `ZeroDivisionError`, claim C10), and
groups exist, `fix_existing_setup("auto")` issues exactly one
`updateWeight` per group carrying `round(weight * 100/T, 2)` — the uniform
`100/T` rescale that preserves relative proportions — followed by an
enable-weighted call exactly when more than one group exists and weighted
grading is not already enabled; no group is deleted and no assignment is
touched.  The new total equals 100 only up to the per-group rounding:
`|new_total - 100| ≤ n * 0.005`, which for more than two groups can exceed
the claimed 0.01 tolerance (see the counterexample). -/
theorem fix_auto_rescales (groups : List CanvasGroup) (enabled : Bool)
    (assignments : List CanvasAssignment)
    (hT2 : round2 (totalWeightOf groups) = totalWeightOf groups)
    (hdev : 1/100 < |totalWeightOf groups - 100|)
    (hnz : totalWeightOf groups ≠ 0)
    (hne : groups ≠ []) :
    (fix_existing_setup groups enabled assignments "auto" = Except.ok (some
      (groups.map (fun g => FixCall.updateWeight g.id
          (round2 (g.group_weight * (100 / totalWeightOf groups))))
        ++ (if enabled = false ∧ 1 < groups.length then [FixCall.enableWeighted] else []),
       { status := "success", groups_adjusted := some groups.length,
         groups_deleted := none }))) ∧
    |updatedWeightSum (groups.map (fun g => FixCall.updateWeight g.id
        (round2 (g.group_weight * (100 / totalWeightOf groups))))) - 100|
      ≤ groups.length * (1/200) ∧
    (∀ c ∈ ((groups.map (fun g => FixCall.updateWeight g.id
          (round2 (g.group_weight * (100 / totalWeightOf groups))))
        ++ (if enabled = false ∧ 1 < groups.length
          then [FixCall.enableWeighted] else []))),
      (∃ g ∈ groups, c = FixCall.updateWeight g.id
          (round2 (g.group_weight * (100 / totalWeightOf groups))))
        ∨ c = FixCall.enableWeighted) := by
  have hlen : 0 < groups.length := List.length_pos.mpr hne
  refine ⟨?_, ?_, ?_⟩
  · simp only [fix_existing_setup, analyze_existing_setup,
      if_neg (by decide : ¬("auto" : String) = "reset"),
      if_pos (by decide : ("auto" : String) = "auto")]
    rw [hT2]
    simp only [if_pos (And.intro hdev hlen), if_neg hnz]
    have hcond : (¬enabled = true ∧ 1 < groups.length)
        ↔ (enabled = false ∧ 1 < groups.length) := by
      cases enabled <;> simp
    by_cases hc : enabled = false ∧ 1 < groups.length
    · rw [if_pos (hcond.mpr hc), if_pos hc]
      simp
    · rw [if_neg (fun h => hc (hcond.mp h)), if_neg hc]
      simp
  · rw [updatedWeightSum_map_update]
    have hmm : (groups.map (fun g => round2 (g.group_weight * (100 / totalWeightOf groups))))
        = (groups.map (fun g => g.group_weight * (100 / totalWeightOf groups))).map round2 := by
      rw [List.map_map]
      rfl
    rw [hmm]
    have hsum : (groups.map (fun g => g.group_weight * (100 / totalWeightOf groups))).sum
        = 100 := by
      rw [sum_map_mul_const]
      field_simp
    have hb := sum_round2_bound
      (groups.map (fun g => g.group_weight * (100 / totalWeightOf groups)))
    rw [hsum, List.length_map] at hb
    exact hb
  · intro c hc
    rcases List.mem_append.mp hc with hmem | hmem
    · rcases List.mem_map.mp hmem with ⟨g, hg, rfl⟩
      exact Or.inl ⟨g, hg, rfl⟩
    · right
      by_cases hcond : enabled = false ∧ 1 < groups.length
      · rw [if_pos hcond] at hmem
        simpa using hmem
      · rw [if_neg hcond] at hmem
        cases hmem

/-- Ten groups totalling exactly 50: nine weigh 5.0015 and one weighs
4.9865; every rescaled weight rounds down by 0.003, so the rounded total
drifts to 99.97. -/
def exDriftGroups : List CanvasGroup :=
  [{ id := 1, group_weight := 10003/2000 }, { id := 2, group_weight := 10003/2000 },
   { id := 3, group_weight := 10003/2000 }, { id := 4, group_weight := 10003/2000 },
   { id := 5, group_weight := 10003/2000 }, { id := 6, group_weight := 10003/2000 },
   { id := 7, group_weight := 10003/2000 }, { id := 8, group_weight := 10003/2000 },
   { id := 9, group_weight := 10003/2000 }, { id := 10, group_weight := 9973/2000 }]

def exDriftCalls : List FixCall :=
  [FixCall.updateWeight 1 10, FixCall.updateWeight 2 10, FixCall.updateWeight 3 10,
   FixCall.updateWeight 4 10, FixCall.updateWeight 5 10, FixCall.updateWeight 6 10,
   FixCall.updateWeight 7 10, FixCall.updateWeight 8 10, FixCall.updateWeight 9 10,
   FixCall.updateWeight 10 (997/100)]

/-- C7 counterexample: on ten groups totalling 50 (so |50-100| > 0.01 and
the auto-fix rescales by 100/50 = 2), the per-group `round(..., 2)` makes
the new total 99.97, so |new_total - 100| = 0.03 > 0.01: the claim that the
rescaled total is always within 0.01 of 100 fails. -/
theorem fix_auto_total_not_within_tolerance :
    fix_existing_setup exDriftGroups true [] "auto" = Except.ok (some (exDriftCalls,
      { status := "success", groups_adjusted := some 10, groups_deleted := none })) ∧
    updatedWeightSum exDriftCalls = 9997/100 ∧
    ¬ (|(9997:ℚ)/100 - 100| ≤ 1/100) := by
  have hT : totalWeightOf exDriftGroups = 50 := by
    norm_num [totalWeightOf, exDriftGroups]
  have hT2 : round2 (totalWeightOf exDriftGroups) = totalWeightOf exDriftGroups := by
    rw [hT]
    exact round2_fixed 50 5000 (by norm_num)
  have ha : round2 ((10003:ℚ)/2000 * (100/50)) = 10 := by
    have he : (10003:ℚ)/2000 * (100/50) = 10003/1000 := by norm_num
    rw [he, round2_eq_down (10003/1000) 1000 (by norm_num) (by norm_num)]
    norm_num
  have hb : round2 ((9973:ℚ)/2000 * (100/50)) = 997/100 := by
    have he : (9973:ℚ)/2000 * (100/50) = 9973/1000 := by norm_num
    rw [he, round2_eq_down (9973/1000) 997 (by norm_num) (by norm_num)]
    norm_num
  obtain ⟨heq, -, -⟩ := fix_auto_rescales exDriftGroups true []
    hT2 (by rw [hT]; norm_num) (by rw [hT]; norm_num) (by simp [exDriftGroups])
  refine ⟨?_, ?_, ?_⟩
  · rw [heq]
    simp only [hT]
    simp only [exDriftGroups, List.map_cons, List.map_nil, ha, hb, exDriftCalls]
    simp
  · norm_num [updatedWeightSum, exDriftCalls]
  · have habs : |(9997:ℚ)/100 - 100| = 3/100 := by
      rw [abs_sub_comm, abs_of_nonneg (by norm_num : (0:ℚ) ≤ 100 - 9997/100)]
      norm_num
    rw [habs]
    norm_num

/-- The calls the auto-fix issues on the spec's `{40,40,10}` example. -/
def exFixCalls904010 : List FixCall :=
  [FixCall.updateWeight 1 (4444/100), FixCall.updateWeight 2 (4444/100),
   FixCall.updateWeight 3 (1111/100)]

/-- Witness for `fix_auto_rescales` at the spec's `{40,40,10}` groups
(total 90, weighted grading already enabled): weights are rescaled by
100/90 to 44.44, 44.44, 11.11; the new total 99.99 is within both the
n*0.005 bound and, in this instance, 0.01. -/
theorem fix_auto_rescales_witness :
    fix_existing_setup exGroups904010 true [] "auto" = Except.ok (some (exFixCalls904010,
      { status := "success", groups_adjusted := some 3, groups_deleted := none })) ∧
    updatedWeightSum exFixCalls904010 = 9999/100 ∧
    |(9999:ℚ)/100 - 100| ≤ 3 * (1/200) ∧ |(9999:ℚ)/100 - 100| ≤ 1/100 := by
  have hT : totalWeightOf exGroups904010 = 90 := by
    norm_num [totalWeightOf, exGroups904010]
  have hT2 : round2 (totalWeightOf exGroups904010) = totalWeightOf exGroups904010 := by
    rw [hT]
    exact round2_fixed 90 9000 (by norm_num)
  have ha : round2 ((40:ℚ) * (100/90)) = 4444/100 := by
    have he2 : (40:ℚ) * (100/90) = 4000/90 := by norm_num
    rw [he2, round2_eq_down (4000/90) 4444 (by norm_num) (by norm_num)]
    norm_num
  have hb : round2 ((10:ℚ) * (100/90)) = 1111/100 := by
    have he : (10:ℚ) * (100/90) = 1000/90 := by norm_num
    rw [he, round2_eq_down (1000/90) 1111 (by norm_num) (by norm_num)]
    norm_num
  obtain ⟨heq, -, -⟩ := fix_auto_rescales exGroups904010 true []
    hT2 (by rw [hT]; norm_num) (by rw [hT]; norm_num) (by simp [exGroups904010])
  have habs : |(9999:ℚ)/100 - 100| = 1/100 := by
    rw [abs_sub_comm, abs_of_nonneg (by norm_num : (0:ℚ) ≤ 100 - 9999/100)]
    norm_num
  refine ⟨?_, ?_, ?_, ?_⟩
  · rw [heq]
    simp only [hT]
    simp only [exGroups904010, List.map_cons, List.map_nil, ha, hb, exFixCalls904010]
    simp
  · norm_num [updatedWeightSum, exFixCalls904010]
  · rw [habs]
    norm_num
  · rw [habs]

/-! ## C8 -/

/-- A fresh course: no groups, weighted grading off, no assignments. -/
def freshCourse : CanvasState :=
  { groups := [], weightedEnabled := false, assignments := [] }

/-- `setup_weighted_grading` (all LMS calls succeeding) followed immediately
by `analyze_existing_setup` on the same course. -/
def setupThenAnalyze (cats : List SetupCategory) : AnalysisResult :=
  analyzeCanvas (setupOnCanvas freshCourse cats)

theorem foldCreate_weights (cats : List SetupCategory) :
    ∀ s : CanvasState,
      ((cats.foldl (fun st c => canvasCreateGroup st c.weight) s).groups.map
          (fun g => g.group_weight))
        = s.groups.map (fun g => g.group_weight) ++ cats.map (fun c => c.weight) := by
  induction cats with
  | nil =>
    intro s
    simp
  | cons c rest ih =>
    intro s
    rw [List.foldl_cons, ih]
    simp [canvasCreateGroup, List.append_assoc]

theorem foldCreate_assignments (cats : List SetupCategory) :
    ∀ s : CanvasState,
      (cats.foldl (fun st c => canvasCreateGroup st c.weight) s).assignments
        = s.assignments := by
  induction cats with
  | nil =>
    intro s
    rfl
  | cons c rest ih =>
    intro s
    rw [List.foldl_cons, ih]
    rfl

/-- C8 (amended): running setup (weights summing to 100, all LMS calls
succeeding) on a fresh course and immediately analyzing it yields weighted
grading enabled, total weight 100 and no orphan assignments — so neither
weight check fires — but the groups the setup just created contain no
assignments yet, so the empty-group check fires: with at least one category
the analysis reports exactly the empty-categories issue and
health = "needs_attention", not "healthy".  The aggregation itself is as
claimed: health = "healthy" exactly when the issues list is empty. -/
theorem setup_then_analyze_round_trip (cats : List SetupCategory)
    (hsum : (cats.map (fun c => c.weight)).sum = 100)
    (hne : cats ≠ []) :
    (setupThenAnalyze cats).weighted_grading_enabled = true ∧
    (setupThenAnalyze cats).total_weight = 100 ∧
    (setupThenAnalyze cats).orphan_assignments = 0 ∧
    (setupThenAnalyze cats).issues = [Issue.emptyGroups cats.length] ∧
    (setupThenAnalyze cats).health = Health.needsAttention ∧
    ∀ (gs : List CanvasGroup) (en : Bool) (asg : List CanvasAssignment),
      (analyze_existing_setup gs en asg).health = Health.healthy
        ↔ (analyze_existing_setup gs en asg).issues = [] := by
  have hvalid : ¬ (1/100 < |(cats.map (fun c => c.weight)).sum - 100|) := by
    rw [hsum]
    norm_num
  have hstate : setupOnCanvas freshCourse cats
      = canvasEnableWeighted (cats.foldl (fun st c => canvasCreateGroup st c.weight)
          freshCourse) := by
    simp only [setupOnCanvas, if_neg hvalid]
  have hgroups : (setupOnCanvas freshCourse cats).groups.map (fun g => g.group_weight)
      = cats.map (fun c => c.weight) := by
    rw [hstate]
    have := foldCreate_weights cats freshCourse
    simpa [canvasEnableWeighted, freshCourse] using this
  have hassign : (setupOnCanvas freshCourse cats).assignments = [] := by
    rw [hstate]
    have := foldCreate_assignments cats freshCourse
    simpa [canvasEnableWeighted, freshCourse] using this
  have henb : (setupOnCanvas freshCourse cats).weightedEnabled = true := by
    rw [hstate]
    rfl
  have hglen : (setupOnCanvas freshCourse cats).groups.length = cats.length := by
    have := congrArg List.length hgroups
    simpa using this
  have htw : totalWeightOf (setupOnCanvas freshCourse cats).groups = 100 := by
    unfold totalWeightOf
    rw [hgroups, hsum]
  have hr100 : round2 (100:ℚ) = 100 := round2_fixed 100 10000 (by norm_num)
  have hempty : ((setupOnCanvas freshCourse cats).groups.filter
      (groupIsEmpty (setupOnCanvas freshCourse cats).assignments))
        = (setupOnCanvas freshCourse cats).groups := by
    rw [hassign]
    apply List.filter_eq_self.mpr
    intro g hg
    rfl
  have hnlen : cats.length ≠ 0 := by
    intro h
    exact hne (List.length_eq_zero.mp h)
  have hwflag : ¬ ((setupOnCanvas freshCourse cats).weightedEnabled = true
      ∧ 1/100 < |totalWeightOf (setupOnCanvas freshCourse cats).groups - 100|) := by
    rw [htw]
    norm_num
  refine ⟨?_, ?_, ?_, ?_, ?_, ?_⟩
  · exact henb
  · show round2 (totalWeightOf (setupOnCanvas freshCourse cats).groups) = 100
    rw [htw, hr100]
  · show ((setupOnCanvas freshCourse cats).assignments.filter isOrphan).length = 0
    rw [hassign]
    rfl
  · show ((if ¬(setupOnCanvas freshCourse cats).weightedEnabled = true
        ∧ 1 < (setupOnCanvas freshCourse cats).groups.length
        then [Issue.multipleGroupsNotWeighted] else [])
      ++ _ ++ _ ++ _) = [Issue.emptyGroups cats.length]
    rw [if_neg (by rw [henb]; simp)]
    rw [if_neg hwflag]
    rw [if_neg (by rw [hassign]; simp)]
    rw [hempty, hglen, if_pos hnlen]
    simp
  · show (if _ then Health.healthy else Health.needsAttention) = Health.needsAttention
    rw [if_neg ?hne2]
    case hne2 =>
      rw [if_neg (by rw [henb]; simp), if_neg hwflag,
        if_neg (by rw [hassign]; simp), hempty, hglen, if_pos hnlen]
      simp
  · intro gs en asg
    have hh : (analyze_existing_setup gs en asg).health
        = (if ((analyze_existing_setup gs en asg).issues).isEmpty
           then Health.healthy else Health.needsAttention) := rfl
    rw [hh]
    by_cases h : ((analyze_existing_setup gs en asg).issues).isEmpty
    · rw [if_pos h]
      rw [List.isEmpty_iff] at h
      simp [h]
    · rw [if_neg h]
      rw [List.isEmpty_iff] at h
      simp [h]

/-- Two categories totalling exactly 100. -/
def exSetupCats : List SetupCategory :=
  [{ name := "Quizzes", weight := 50 }, { name := "Exams", weight := 50 }]

/-- C8 counterexample: setting up two 50%-weight categories on a fresh course
and immediately analyzing it does NOT yield health="healthy" with empty
issues — the two groups the setup just created are empty (no assignments in
them yet), the empty-group check fires, and health is "needs_attention".
No orphan or empty-group condition was introduced externally: the fresh
course has no assignments at all, and the empty groups are the setup's own. -/
theorem setup_then_analyze_not_healthy :
    (setupThenAnalyze exSetupCats).issues = [Issue.emptyGroups 2] ∧
    (setupThenAnalyze exSetupCats).health = Health.needsAttention ∧
    ¬ ((setupThenAnalyze exSetupCats).health = Health.healthy ∧
       (setupThenAnalyze exSetupCats).issues = []) := by
  have hr100 : round2 (100:ℚ) = 100 := round2_fixed 100 10000 (by norm_num)
  have heval : setupThenAnalyze exSetupCats =
      { has_groups := true,
        groups := [{ id := 1, group_weight := 50 }, { id := 2, group_weight := 50 }],
        weighted_grading_enabled := true, total_weight := 100,
        orphan_assignments := 0, empty_groups := 2,
        issues := [Issue.emptyGroups 2],
        suggestions := [Suggestion.removeEmptyGroups],
        health := Health.needsAttention } := by
    norm_num [setupThenAnalyze, analyzeCanvas, setupOnCanvas, freshCourse,
      canvasCreateGroup, canvasEnableWeighted, canvasFreshId, exSetupCats,
      analyze_existing_setup, totalWeightOf, isOrphan, groupIsEmpty, hr100]
  rw [heval]
  refine ⟨rfl, rfl, ?_⟩
  rintro ⟨h1, -⟩
  exact Health.noConfusion h1

/-- Witness for `setup_then_analyze_round_trip` at two 50%-weight
categories on a fresh course. -/
theorem setup_then_analyze_round_trip_witness :
    (setupThenAnalyze exSetupCats).weighted_grading_enabled = true ∧
    (setupThenAnalyze exSetupCats).total_weight = 100 ∧
    (setupThenAnalyze exSetupCats).orphan_assignments = 0 ∧
    (setupThenAnalyze exSetupCats).issues = [Issue.emptyGroups 2] ∧
    (setupThenAnalyze exSetupCats).health = Health.needsAttention := by
  obtain ⟨h1, h2, h3, h4, h5, -⟩ := setup_then_analyze_round_trip exSetupCats
    (by norm_num [exSetupCats]) (by simp [exSetupCats])
  refine ⟨h1, h2, h3, ?_, h5⟩
  rw [h4]
  norm_num [exSetupCats]
